import Mathlib

/-
Verification of the quantanalysis core against its specification.

Shallow embedding conventions:
* Python floats are modelled as exact rationals (`ℚ`); dates as integers
  (day numbers, `ℤ`); Python dicts keyed by ticker as association lists
  `List (String × ℚ)` in insertion order.
* Operations that have no rational closed form in the source
  (`numpy.sqrt`, the float power `**`) are passed in as an uninterpreted
  parameter (`FloatOps`), so every theorem holds for the real float
  functions in particular.
* Fallible paths are kept as the source keeps them: the engines return
  result records carrying a `success` flag instead of raising.
-/

namespace QuantAnalysis

/-! ### Cost model — src/backtest/cost_model.py -/

/-- `CostConfig` of src/backtest/cost_model.py (defaults as in source). -/
structure CostConfig where
  commission_fixed : ℚ := 0
  commission_pct : ℚ := 1/1000
  slippage_pct : ℚ := 1/1000
  min_trade_value : ℚ := 100
deriving Repr, DecidableEq

/-- `CostModel.calculate_commission`: note the source compares the *signed*
`trade_value` against `min_trade_value` but applies `abs` in the variable
part. -/
def calculate_commission (cfg : CostConfig) (trade_value : ℚ) : ℚ :=
  if trade_value < cfg.min_trade_value then 0
  else cfg.commission_fixed + |trade_value| * cfg.commission_pct

/-- `CostModel.calculate_slippage`: the floor here is on `abs(trade_value)`. -/
def calculate_slippage (cfg : CostConfig) (trade_value : ℚ)
    (volatility : Option ℚ) : ℚ :=
  if |trade_value| < cfg.min_trade_value then 0
  else
    let base := |trade_value| * cfg.slippage_pct
    match volatility with
    | some v => if 0 < v then base * min 2 (1 + v / (1/5)) else base
    | none => base

/-- `CostModel.calculate_total_cost` (the engine always calls it without a
volatility argument). -/
def calculate_total_cost (cfg : CostConfig) (trade_value : ℚ)
    (volatility : Option ℚ := none) : ℚ :=
  calculate_commission cfg trade_value + calculate_slippage cfg trade_value volatility

/-! ### Sandbox attribute guard — src/strategy/sandbox.py -/

/-- The `dangerous_attrs` set of `_safe_getattr`. -/
def dangerous_attrs : List String :=
  ["__class__", "__bases__", "__subclasses__", "__mro__",
   "__dict__", "__globals__", "__code__", "__closure__",
   "__self__", "__func__", "func_globals", "func_code",
   "gi_frame", "gi_code", "co_code", "f_globals", "f_locals"]

/-- Outcome of an attribute access through the guard: either a contained
`AttributeError` (denied) or delegation to the ordinary lookup. -/
inductive AttrAccess where
  | denied (msg : String)
  | lookup
deriving Repr, DecidableEq

/-- Whether the guard denied the access. -/
def AttrAccess.isDenied : AttrAccess → Bool
  | .denied _ => true
  | .lookup => false

/-- `name.startswith(chr(95))`: the first character is an underscore. -/
def startsWithUnderscore (name : String) : Bool :=
  match name.data with
  | [] => false
  | c :: _ => c = '_'

/-- `_safe_getattr` of src/strategy/sandbox.py. The guard inspects only the
attribute *name*: both denial branches raise before ever touching the
object, so the embedding is a function of the name alone (this is exactly
what makes the guarantee hold for any object). -/
def safe_getattr (name : String) : AttrAccess :=
  if startsWithUnderscore name then
    .denied ("Access to private attribute " ++ name ++ " is not allowed")
  else if name ∈ dangerous_attrs then
    .denied ("Access to attribute " ++ name ++ " is not allowed")
  else
    .lookup

/-! ### Data coverage validation — src/backtest/engine.py -/

/-- `DataCoverageStatus` (`partialCov` renders the source's `PARTIAL`). -/
inductive DataCoverageStatus where
  | full
  | partialCov
  | noData
deriving Repr, DecidableEq

/-- The fields of `TickerCoverageInfo` the validator computes that the
spec claims talk about (presentation fields such as `coverage_pct` and the
emoji/label helpers are omitted). -/
structure TickerCoverageInfo where
  status : DataCoverageStatus
  missing_start_days : ℤ
  missing_end_days : ℤ
deriving Repr, DecidableEq

/-- The per-ticker classification of `BacktestEngine.validate_data_coverage`.
`inception` is the ticker's inception date (`None` when unobtainable) and
`dataDates` the dates inside the requested window that carry a price (the
index of `prices[ticker].dropna()`, in ascending order). -/
def classify_ticker (start_date end_date : ℤ) (inception : Option ℤ)
    (dataDates : List ℤ) : TickerCoverageInfo :=
  match inception with
  | none => ⟨.noData, end_date - start_date, 0⟩
  | some actual_start =>
    match dataDates with
    | [] =>
      if end_date < actual_start then ⟨.noData, actual_start - start_date, 0⟩
      else ⟨.noData, end_date - start_date, 0⟩
    | d :: ds =>
      let actual_end := (d :: ds).getLast (by simp)
      let missing_start_days := max 0 (actual_start - start_date)
      let missing_end_days := max 0 (end_date - actual_end)
      let start_ok := actual_start ≤ start_date
      let end_ok := end_date ≤ actual_end ∨ end_date - actual_end ≤ 5
      ⟨if start_ok ∧ end_ok then .full else .partialCov,
       missing_start_days, missing_end_days⟩

/-- `DataValidationResult` (the fields the claims are about; the warning
strings and per-ticker info map are kept out of the aggregate since no claim
reads them). -/
structure DataValidationResult where
  is_valid : Bool
  excluded_tickers : List String
  partial_tickers : List String
  full_coverage_tickers : List String
deriving Repr, DecidableEq

/-- `usable_tickers_count` property. -/
def DataValidationResult.usable_tickers_count (r : DataValidationResult) : ℕ :=
  r.partial_tickers.length + r.full_coverage_tickers.length

/-- `has_excluded_tickers` property. -/
def DataValidationResult.has_excluded_tickers (r : DataValidationResult) : Bool :=
  decide (0 < r.excluded_tickers.length)

/-- `has_partial_tickers` property. -/
def DataValidationResult.has_partial_tickers (r : DataValidationResult) : Bool :=
  decide (0 < r.partial_tickers.length)

/-- `DataValidationResult.get_severity_level`. -/
def DataValidationResult.get_severity_level (r : DataValidationResult) : String :=
  if ¬ r.is_valid then "critical"
  else if r.has_excluded_tickers then "error"
  else if r.has_partial_tickers then "warning"
  else "success"

/-- One ticker's raw data as the validator sees it: name, inception date,
and the dates inside the window carrying a price. -/
abbrev TickerData := String × Option ℤ × List ℤ

/-- The classification loop of `validate_data_coverage`: the excluded,
partial and full ticker lists, in input order (the source appends to each
as it walks the ticker list). -/
def coverageLists (start_date end_date : ℤ) :
    List TickerData → List String × List String × List String
  | [] => ([], [], [])
  | (tk, inc, ds) :: rest =>
    let r := coverageLists start_date end_date rest
    match (classify_ticker start_date end_date inc ds).status with
    | .noData => (tk :: r.1, r.2.1, r.2.2)
    | .partialCov => (r.1, tk :: r.2.1, r.2.2)
    | .full => (r.1, r.2.1, tk :: r.2.2)

/-- `BacktestEngine.validate_data_coverage`, assembled as in the source:
`is_valid` is `usable_count > 0` over the lists the loop builds.
(`effective_start_date`/`effective_end_date` are not modelled; no claim
mentions them.) -/
def validate_data_coverage (start_date end_date : ℤ)
    (inputs : List TickerData) : DataValidationResult :=
  let r := coverageLists start_date end_date inputs
  { is_valid := decide (0 < r.2.1.length + r.2.2.length)
    excluded_tickers := r.1
    partial_tickers := r.2.1
    full_coverage_tickers := r.2.2 }

/-! ### Performance metrics — src/backtest/metrics.py

A value series is a list of `(date, value)` pairs in chronological order
(the pandas Series with its DatetimeIndex). `numpy.sqrt` and the float
power used by CAGR have no rational closed form; they are passed in
uninterpreted through `FloatOps`, so each theorem quantifies over them. -/

/-- Uninterpreted real-valued helpers of numpy used by the metrics:
`sqrt x` stands for `numpy.sqrt x` and `rpow b e` for the float power
`b ** e`. -/
structure FloatOps where
  sqrt : ℚ → ℚ
  rpow : ℚ → ℚ → ℚ

/-- `MetricsConfig` (defaults as in source). -/
structure MetricsConfig where
  risk_free_rate : ℚ := 3/100
  trading_days_per_year : ℚ := 252
deriving Repr, DecidableEq

/-- A value series: `(date, value)` pairs, chronological. -/
abbrev Series := List (ℤ × ℚ)

/-- The values of a series. -/
def seriesVals (s : Series) : List ℚ := s.map Prod.snd

/-- `values.pct_change().dropna()`: consecutive ratios minus one. -/
def pctChange (vals : List ℚ) : List ℚ :=
  List.zipWith (fun prev cur => cur / prev - 1) vals vals.tail

/-- Arithmetic mean (`pandas.Series.mean`); `0` on the empty list, a case
no guarded caller reaches. -/
def listMean (l : List ℚ) : ℚ := l.sum / l.length

/-- Sample variance with `ddof=1` (`pandas.Series.var`). In pandas a list
of length `< 2` gives `NaN`; here the division by zero collapses to `0`.
Every claim settled below stays inside the guarded branches where the two
agree. -/
def sampleVar (l : List ℚ) : ℚ :=
  ((l.map (fun x => (x - listMean l) ^ 2)).sum) / (l.length - 1 : ℚ)

/-- Sample covariance with `ddof=1` (`pandas.Series.cov`) of two equally
long lists. -/
def sampleCov (xs ys : List ℚ) : ℚ :=
  ((List.zipWith (fun x y => (x - listMean xs) * (y - listMean ys)) xs ys).sum)
    / (xs.length - 1 : ℚ)

/-- Running maximum (`Series.cummax`). -/
def cummaxAux (m : ℚ) : List ℚ → List ℚ
  | [] => []
  | a :: r => max m a :: cummaxAux (max m a) r

/-- `Series.cummax` of a value list. -/
def cummax : List ℚ → List ℚ
  | [] => []
  | a :: r => cummaxAux a (a :: r)

/-- Minimum of a value list (`Series.min`); `0` on the empty list. -/
def listMin : List ℚ → ℚ
  | [] => 0
  | a :: r => r.foldl min a

/-- `PerformanceMetrics.total_return`. -/
def total_return (values : Series) : ℚ :=
  if values.length < 2 then 0
  else ((seriesVals values).getLastD 0 / (seriesVals values).headD 0 - 1) * 100

/-- `PerformanceMetrics.cagr`: `days` is the span of the DatetimeIndex and
a year is 365.25 days. -/
def cagr (ops : FloatOps) (values : Series) : ℚ :=
  if values.length < 2 then 0
  else
    let tr := (seriesVals values).getLastD 0 / (seriesVals values).headD 0
    let days : ℤ := ((values.map Prod.fst).getLastD 0) - ((values.map Prod.fst).headD 0)
    if days ≤ 0 then 0
    else
      let years : ℚ := (days : ℚ) / (1461/4)
      (ops.rpow tr (1 / years) - 1) * 100

/-- `PerformanceMetrics.max_drawdown`. -/
def max_drawdown (values : Series) : ℚ :=
  if values.length < 2 then 0
  else
    let vs := seriesVals values
    listMin (List.zipWith (fun v m => (v / m - 1) * 100) vs (cummax vs))

/-- The walk behind `max_drawdown_duration`: thread the running maximum and
the date of the most recent peak (`peak_dates` is a forward fill of the
dates where the value equals its running maximum), keep the largest gap. -/
def mddDurationAux (lastPeak : ℤ) (runMax : ℚ) (best : ℤ) : Series → ℤ
  | [] => best
  | (d, v) :: rest =>
    let m := max runMax v
    let peak := if m ≤ v then d else lastPeak
    mddDurationAux peak m (max best (d - peak)) rest

/-- `PerformanceMetrics.max_drawdown_duration` (in days). -/
def max_drawdown_duration (values : Series) : ℤ :=
  if values.length < 2 then 0
  else
    match values with
    | [] => 0
    | (d, v) :: rest => mddDurationAux d v 0 rest

/-- `PerformanceMetrics.volatility` (annualized when `annualize`). -/
def volatility (ops : FloatOps) (cfg : MetricsConfig) (values : Series)
    (annualize : Bool := true) : ℚ :=
  if values.length < 2 then 0
  else
    let vol := ops.sqrt (sampleVar (pctChange (seriesVals values)))
    (if annualize then vol * ops.sqrt cfg.trading_days_per_year else vol) * 100

/-- `PerformanceMetrics.sharpe_ratio`. -/
def sharpe_ratio (ops : FloatOps) (cfg : MetricsConfig) (values : Series) : ℚ :=
  if values.length < 2 then 0
  else
    let returns := pctChange (seriesVals values)
    let std := ops.sqrt (sampleVar returns)
    if std = 0 then 0
    else
      let rf_daily := cfg.risk_free_rate / cfg.trading_days_per_year
      (listMean (returns.map (fun r => r - rf_daily)) / std)
        * ops.sqrt cfg.trading_days_per_year

/-- `PerformanceMetrics.sortino_ratio`. -/
def sortino_ratio (ops : FloatOps) (cfg : MetricsConfig) (values : Series) : ℚ :=
  if values.length < 2 then 0
  else
    let returns := pctChange (seriesVals values)
    let rf_daily := cfg.risk_free_rate / cfg.trading_days_per_year
    let downside := returns.filter (fun r => r < 0)
    if downside.length = 0 ∨ ops.sqrt (sampleVar downside) = 0 then 0
    else
      let downside_std := ops.sqrt (sampleVar downside) * ops.sqrt cfg.trading_days_per_year
      (listMean (returns.map (fun r => r - rf_daily)) * cfg.trading_days_per_year)
        / downside_std

/-- `PerformanceMetrics.calmar_ratio`. -/
def calmar_ratio (ops : FloatOps) (_cfg : MetricsConfig) (values : Series) : ℚ :=
  let c := cagr ops values
  let max_dd := |max_drawdown values|
  if max_dd = 0 then 0 else c / max_dd

/-- The date-aligned value pair behind alpha/beta/information ratio:
`portfolio.loc[common_idx]` and `benchmark.loc[common_idx]` where
`common_idx` is the index intersection. -/
def alignPair (portfolio benchmark : Series) : List ℚ × List ℚ :=
  ((portfolio.filter (fun p => (benchmark.map Prod.fst).contains p.1)).map Prod.snd,
   (benchmark.filter (fun p => (portfolio.map Prod.fst).contains p.1)).map Prod.snd)

/-- The benchmark variance `bench_returns.var()` that `beta` tests against
zero. -/
def alignedBenchVar (portfolio benchmark : Series) : ℚ :=
  sampleVar (pctChange (alignPair portfolio benchmark).2)

/-- `PerformanceMetrics.beta`. -/
def beta (portfolio benchmark : Series) : ℚ :=
  if portfolio.length < 2 ∨ benchmark.length < 2 then 1
  else
    let port_returns := pctChange (alignPair portfolio benchmark).1
    let bench_returns := pctChange (alignPair portfolio benchmark).2
    let bench_var := alignedBenchVar portfolio benchmark
    if bench_var = 0 then 1
    else sampleCov port_returns bench_returns / bench_var

/-! ### Strategy context weights — src/strategy/engine.py

Python dicts keyed by ticker become association lists in insertion order;
a dict value is read off with `wlookup` (first binding wins, default 0 as
`dict.get(t, 0)` has). -/

/-- `dict.get k 0` over an association list. -/
def wlookup (l : List (String × ℚ)) (k : String) : ℚ :=
  (((l.find? (fun p => p.1 = k)).map Prod.snd).getD 0)

/-- Sum of a weight dict's values. -/
def sumWeights (l : List (String × ℚ)) : ℚ := (l.map Prod.snd).sum

/-- The filtering loop of `StrategyContext.set_target_weights`: keep known
tickers with their weight clamped to `max 0`, log one line per unknown
ticker (signal text abridged from the source's message). -/
def filter_weights (tickers : List String) :
    List (String × ℚ) → List (String × ℚ) × List String
  | [] => ([], [])
  | (t, w) :: rest =>
    if t ∈ tickers then
      ((t, max 0 w) :: (filter_weights tickers rest).1,
       (filter_weights tickers rest).2)
    else
      ((filter_weights tickers rest).1,
       ("ignored unknown ticker " ++ t) :: (filter_weights tickers rest).2)

/-- `StrategyContext.set_target_weights`. State touched: the stored target
weights and the signal list; both are returned (target, signals after the
call). `current_weights` is the context's `_current_weights`. -/
def set_target_weights (tickers : List String)
    (current_weights : List (String × ℚ)) (signals : List String)
    (weights : List (String × ℚ)) (normalize : Bool) :
    List (String × ℚ) × List String :=
  let filtered := (filter_weights tickers weights).1
  let signals := signals ++ (filter_weights tickers weights).2
  if normalize ∧ filtered ≠ [] then
    let total := sumWeights filtered
    if 0 < total then
      let signals :=
        if 1/10 < |total - 100| then signals ++ ["weights normalized to 100"]
        else signals
      (filtered.map (fun p => (p.1, p.2 / total * 100)), signals)
    else
      (current_weights, signals ++ ["all weights zero, keeping current allocation"])
  else
    (filtered, signals)

/-! ### Strategy engine execution — src/strategy/engine.py -/

/-- `StrategyResult`. -/
structure StrategyResult where
  success : Bool
  target_weights : List (String × ℚ)
  message : String
  signals : List String := []
deriving Repr, DecidableEq

/-- What the sandboxed run of a user script leaves behind, as
`StrategyEngine.execute` observes it: either the context's target weights
(`none` when the script never called `set_target_weights`) together with
its signals, or a raised error. `err` covers both `except StrategyError`
and the generic `except Exception` arm — the two return the same result
shape, differing only in message text. -/
inductive SandboxOutcome where
  | ok (target : Option (List (String × ℚ))) (signals : List String)
  | err (msg : String)

/-- The result assembly of `StrategyEngine.execute` (the timing fields are
dropped; wall-clock time is outside the embedding). -/
def strategyExecute (outcome : SandboxOutcome)
    (current_weights : List (String × ℚ)) : StrategyResult :=
  match outcome with
  | .ok none sigs =>
    ⟨true, current_weights, "Strategy executed successfully", sigs⟩
  | .ok (some tw) sigs =>
    ⟨true, tw, "Strategy executed successfully", sigs⟩
  | .err m =>
    ⟨false, current_weights, m, []⟩

/-! ### Backtest engine — src/backtest/engine.py

Price data is the fetched DataFrame: a column list and date-indexed rows,
each row an association list over the columns. `_get_rebalance_dates` is
pandas calendar grouping over the trading-date index; the schedule it
yields enters the embedding as the `rebalanceDates` parameter (no claim is
about the grouping itself). The user strategy (`strategy_func`) enters as
a function from the context's current weights and date to an optional
target dict — `none` when it returned `None` **or** raised (the source's
`except Exception: pass` makes both leave the loop state untouched). -/

/-- `Trade` record. -/
structure Trade where
  date : ℤ
  ticker : String
  action : String
  shares : ℚ
  price : ℚ
  value : ℚ
  cost : ℚ
deriving Repr, DecidableEq

/-- The fetched price DataFrame. -/
structure PriceData where
  columns : List String
  rows : List (ℤ × List (String × ℚ))
deriving Repr, DecidableEq

/-- `row[ticker]` as an optional value (`ticker in row` is `isSome`). -/
def rlookup (row : List (String × ℚ)) (t : String) : Option ℚ :=
  (row.find? (fun p => p.1 = t)).map Prod.snd

/-- `d[k] = v` on an association list: replace the first binding, append
if absent. -/
def aset : List (String × ℚ) → String → ℚ → List (String × ℚ)
  | [], k, v => [(k, v)]
  | (k', v') :: r, k, v =>
    if k' = k then (k, v) :: r else (k', v') :: aset r k v

/-- The mutable state of the `run_dynamic` simulation loop.
`sell_clamped` is proof instrumentation, not source state: it records
whether any SELL ever hit the `max(0, …)` clamp (it influences no
behaviour). -/
structure DynState where
  positions : List (String × ℚ)
  current_weights : List (String × ℚ)
  cash : ℚ
  trades : List Trade
  values : List (ℤ × ℚ)
  sell_clamped : Bool
deriving Repr, DecidableEq

/-- The initial-purchase loop of `run_dynamic`: for each available ticker
with positive weight, buy `cash * weight` at the first row's price and
record the trade (`cash` stays the full initial capital for the whole
loop, exactly as in the source, and is zeroed afterwards). -/
def initialBuyLoop (cost : CostConfig) (cw : List (String × ℚ)) (cash : ℚ)
    (d : ℤ) (firstRow : List (String × ℚ)) :
    List String → List (String × ℚ) → List (String × ℚ) × List Trade
  | [], pos => (pos, [])
  | t :: ts, pos =>
    let weight := wlookup cw t / 100
    if 0 < weight then
      let value_to_invest := cash * weight
      let price := (rlookup firstRow t).getD 0
      let shares := value_to_invest / price
      let cost_amt := calculate_total_cost cost value_to_invest
      let rest := initialBuyLoop cost cw cash d firstRow ts (aset pos t shares)
      (rest.1, ⟨d, t, "BUY", shares, price, value_to_invest, cost_amt⟩ :: rest.2)
    else
      initialBuyLoop cost cw cash d firstRow ts pos

/-- The mark-to-market pass of `run_dynamic`: value every position that is
positive and priced in this row. -/
def positionValues (positions row : List (String × ℚ)) :
    List String → List (String × ℚ)
  | [] => []
  | t :: ts =>
    match rlookup row t with
    | some price =>
      if 0 < wlookup positions t then
        (t, wlookup positions t * price) :: positionValues positions row ts
      else positionValues positions row ts
    | none => positionValues positions row ts

/-- The rebalancing trade loop of `run_dynamic`: walk the available
tickers, skip weight deltas under one percentage point and trade values
under 100, apply surviving deltas to the position map (sells clamped at
zero) and record the trades. The third component reports whether a clamp
fired (instrumentation). -/
def rebalanceLoop (cost : CostConfig) (d : ℤ)
    (row pvals : List (String × ℚ)) (total_value : ℚ)
    (cw target : List (String × ℚ)) :
    List String → List (String × ℚ) → List (String × ℚ) × List Trade × Bool
  | [], pos => (pos, [], false)
  | t :: ts, pos =>
    let diff := wlookup target t - wlookup cw t
    if |diff| < 1 then rebalanceLoop cost d row pvals total_value cw target ts pos
    else
      let price := (rlookup row t).getD 0
      let trade_value := total_value * (wlookup target t / 100) - wlookup pvals t
      if |trade_value| < 100 then rebalanceLoop cost d row pvals total_value cw target ts pos
      else
        let shares_change := trade_value / price
        let cost_amt := calculate_total_cost cost |trade_value|
        let execTrade :=
          if 0 < trade_value then
            (aset pos t (wlookup pos t + shares_change), "BUY", false)
          else
            (aset pos t (max 0 (wlookup pos t + shares_change)), "SELL",
             decide (wlookup pos t + shares_change < 0))
        let rest :=
          rebalanceLoop cost d row pvals total_value cw target ts execTrade.1
        (rest.1,
         ⟨d, t, execTrade.2.1, |shares_change|, price, |trade_value|, cost_amt⟩ :: rest.2.1,
         execTrade.2.2 || rest.2.2)

/-- Mark-to-market total of a day: cash plus the summed position values. -/
def mtmTotal (st : DynState) (available : List String)
    (row : List (String × ℚ)) : ℚ :=
  st.cash + sumWeights (positionValues st.positions row available)

/-- The weight vector recomputed from position values each day (kept when
the total is not positive, as in the source). -/
def mtmWeights (st : DynState) (available : List String)
    (row : List (String × ℚ)) : List (String × ℚ) :=
  if 0 < mtmTotal st available row then
    available.map (fun t =>
      (t, wlookup (positionValues st.positions row available) t
            / mtmTotal st available row * 100))
  else st.current_weights

/-- One iteration of the `for idx, row in backtest_prices.iterrows()` loop
of `run_dynamic`: mark to market, append the value point, refresh the
weight vector from position values, and on a rebalance date consult the
strategy and trade toward its (normalized) target. -/
def dynStep (cost : CostConfig) (available : List String)
    (rebalanceDates : List ℤ)
    (strat : List (String × ℚ) → ℤ → Option (List (String × ℚ)))
    (st : DynState) (drow : ℤ × List (String × ℚ)) : DynState :=
  let d := drow.1
  let row := drow.2
  let pvals := positionValues st.positions row available
  let total_value := mtmTotal st available row
  let values := st.values ++ [(d, total_value)]
  let cw := mtmWeights st available row
  if d ∈ rebalanceDates then
    match strat cw d with
    | none => { st with values := values, current_weights := cw }
    | some target0 =>
      let target_total := sumWeights target0
      let target :=
        if 0 < target_total then
          target0.map (fun p => (p.1, p.2 / target_total * 100))
        else target0
      let r := rebalanceLoop cost d row pvals total_value cw target available st.positions
      { positions := r.1
        current_weights := target
        cash := st.cash
        trades := st.trades ++ r.2.1
        values := values
        sell_clamped := st.sell_clamped || r.2.2 }
  else
    { st with values := values, current_weights := cw }

/-- State after the initial purchase of `run_dynamic` (`cash = 0`: fully
deployed by design). -/
def dynInit (cost : CostConfig) (available : List String)
    (cw : List (String × ℚ)) (capital : ℚ)
    (first : ℤ × List (String × ℚ)) : DynState :=
  let r := initialBuyLoop cost cw capital first.1 first.2 available
      (available.map (fun t => (t, (0 : ℚ))))
  ⟨r.1, cw, 0, r.2, [], false⟩

/-- `BacktestResult`, reduced to the fields the claims read. The final
position ledger is internal loop state in the source; the embedding
surfaces it through `finalState` so the trade-replay claim can talk about
it (metrics, drawdown series and weight history are derived views treated
under the metrics component). -/
structure BacktestResultM where
  portfolio_values : List (ℤ × ℚ)
  trades : List Trade
  success : Bool
  message : String
  finalState : Option DynState := none
deriving Repr, DecidableEq

/-- The initial-weight normalization of `run_dynamic`: a zero-sum vector
falls back to equal weights over all tickers, otherwise scale to 100. -/
def dynNormWeights (tickers : List String)
    (initial_weights : List (String × ℚ)) : List (String × ℚ) :=
  if sumWeights initial_weights = 0 then
    tickers.map (fun t => (t, (100 : ℚ) / tickers.length))
  else
    initial_weights.map (fun p => (p.1, p.2 / sumWeights initial_weights * 100))

/-- The whole simulation of `run_dynamic` past its guards: initial
purchase on the first in-window row, then the daily loop over every
in-window row (the first included, as `iterrows` revisits it). Total by
construction; `run_dynamic` only reaches it with a nonempty row list. -/
def dynRun (cost : CostConfig) (capital : ℚ) (start_date : ℤ)
    (tickers : List String) (initial_weights : List (String × ℚ))
    (prices : PriceData) (rebalanceDates : List ℤ)
    (strat : List (String × ℚ) → ℤ → Option (List (String × ℚ))) :
    DynState :=
  let rows := prices.rows.filter (fun r => decide (start_date ≤ r.1))
  let available := tickers.filter (fun t => t ∈ prices.columns)
  let cw0 := available.map
    (fun t => (t, wlookup (dynNormWeights tickers initial_weights) t))
  let st0 := dynInit cost available cw0 capital (rows.headD (0, []))
  rows.foldl (dynStep cost available rebalanceDates strat) st0

/-- `BacktestEngine.run_dynamic`. Guard order, fallbacks and messages as in
source: a zero-sum initial weight vector falls back to equal weights, then
empty fetched data, an empty backtest window and an empty available-ticker
list each fail with a message; otherwise the simulation (`dynRun`) runs
and the result is always `success := true`. -/
def run_dynamic (cost : CostConfig) (capital : ℚ) (start_date : ℤ)
    (tickers : List String) (initial_weights : List (String × ℚ))
    (prices : PriceData) (rebalanceDates : List ℤ)
    (strat : List (String × ℚ) → ℤ → Option (List (String × ℚ))) :
    BacktestResultM :=
  if prices.rows = [] then ⟨[], [], false, "No price data available", none⟩
  else
    match prices.rows.filter (fun r => decide (start_date ≤ r.1)) with
    | [] => ⟨[], [], false, "No data in backtest period", none⟩
    | _ :: _ =>
      if tickers.filter (fun t => t ∈ prices.columns) = [] then
        ⟨[], [], false, "No valid tickers found", none⟩
      else
        let final := dynRun cost capital start_date tickers initial_weights
          prices rebalanceDates strat
        ⟨final.values, final.trades, true, "", some final⟩

/-- `BacktestEngine.run_static`. Guards and buy-and-hold value series as in
source (metrics/drawdown/weight-history assembly omitted as above; a
static run records no trades). -/
def run_static (capital : ℚ) (tickers : List String)
    (weights : List (String × ℚ)) (prices : PriceData) : BacktestResultM :=
  let total_weight := sumWeights weights
  if total_weight = 0 then ⟨[], [], false, "Weights sum to zero", none⟩
  else
    let norm_weights := weights.map (fun p => (p.1, p.2 / total_weight))
    if prices.rows = [] then ⟨[], [], false, "No price data available", none⟩
    else
      let available := tickers.filter (fun t => t ∈ prices.columns)
      if available = [] then ⟨[], [], false, "No valid tickers found", none⟩
      else
        let aw0 := available.map (fun t => (t, wlookup norm_weights t))
        let avail_total := sumWeights aw0
        let aw := if 0 < avail_total then aw0.map (fun p => (p.1, p.2 / avail_total)) else aw0
        let firstRow := (prices.rows.headD (0, [])).2
        let values := prices.rows.map (fun r =>
          (r.1, (available.map (fun t =>
            (rlookup r.2 t).getD 0 / (rlookup firstRow t).getD 0
              * (capital * wlookup aw t))).sum))
        ⟨values, [], true, "", none⟩

/-! ### Trade-log replay (the round-trip of §8 of the spec)

A cash-and-shares ledger: start from the initial capital with no shares,
apply each trade in log order — a BUY adds its shares and pays value and
cost out of cash, a SELL removes its shares and collects value minus
cost. -/

/-- Apply one logged trade to the `(shares, cash)` ledger. -/
def replayStep (ledger : List (String × ℚ) × ℚ) (t : Trade) :
    List (String × ℚ) × ℚ :=
  if t.action = "BUY" then
    (aset ledger.1 t.ticker (wlookup ledger.1 t.ticker + t.shares),
     ledger.2 - t.value - t.cost)
  else
    (aset ledger.1 t.ticker (wlookup ledger.1 t.ticker - t.shares),
     ledger.2 + t.value - t.cost)

/-- Replay a trade log from the initial capital. -/
def replayTrades (capital : ℚ) (trades : List Trade) :
    List (String × ℚ) × ℚ :=
  trades.foldl replayStep ([], capital)

/-- The replayed portfolio value: ledger cash plus the replayed shares
marked at the last row's prices. -/
def replayFinalValue (capital : ℚ) (trades : List Trade)
    (lastRow : List (String × ℚ)) : ℚ :=
  let r := replayTrades capital trades
  r.2 + (r.1.map (fun p => p.2 * (rlookup lastRow p.1).getD 0)).sum

/-! ### Object store for the defensive-copy discipline — src/strategy/engine.py

`StrategyContext` hands Python lists/dicts to untrusted code; whether a
script-side in-place mutation reaches the context's internal state is a
question of object identity, so this fragment models a heap: addresses,
a cell store per cell type, allocation (`list.copy()` / `dict.copy()`
allocate), and in-place writes. The context methods are transcribed from
the source: the constructor stores the caller's ticker list by reference
but **copies** the weights dict; `tickers`, `signals` and
`get_current_weights` each return `self._x.copy()`. -/

/-- Heap addresses. -/
abbrev Addr := ℕ

/-- The heap: a bump allocator over two cell stores — string-list cells
(ticker lists, signal lists) and weight-dict cells. -/
structure Heap where
  next : Addr
  lists : Addr → List String
  dicts : Addr → List (String × ℚ)

/-- Allocate a fresh string-list cell holding `v`. -/
def allocList (h : Heap) (v : List String) : Addr × Heap :=
  (h.next,
   { next := h.next + 1
     lists := fun a => if a = h.next then v else h.lists a
     dicts := h.dicts })

/-- Allocate a fresh weight-dict cell holding `v`. -/
def allocDict (h : Heap) (v : List (String × ℚ)) : Addr × Heap :=
  (h.next,
   { next := h.next + 1
     lists := h.lists
     dicts := fun a => if a = h.next then v else h.dicts a })

/-- An in-place mutation of a string-list object (append, clear, index
assignment… — any of them overwrites the cell's contents). -/
def writeList (h : Heap) (a : Addr) (v : List String) : Heap :=
  { h with lists := fun b => if b = a then v else h.lists b }

/-- An in-place mutation of a weight-dict object. -/
def writeDict (h : Heap) (a : Addr) (v : List (String × ℚ)) : Heap :=
  { h with dicts := fun b => if b = a then v else h.dicts b }

/-- The reference cells behind a `StrategyContext`. -/
structure CtxState where
  tickersA : Addr
  signalsA : Addr
  currentWeightsA : Addr

/-- `StrategyContext.__init__`: `self._tickers = tickers` (alias),
`self._current_weights = current_weights.copy()` (fresh cell),
`self._signals = []` (fresh cell). -/
def ctxInit (h : Heap) (tickersArg currentWeightsArg : Addr) :
    CtxState × Heap :=
  let cw := allocDict h (h.dicts currentWeightsArg)
  let sg := allocList cw.2 []
  (⟨tickersArg, sg.1, cw.1⟩, sg.2)

/-- The `tickers` property: `return self._tickers.copy()`. -/
def ctxTickers (h : Heap) (c : CtxState) : Addr × Heap :=
  allocList h (h.lists c.tickersA)

/-- The `signals` property: `return self._signals.copy()`. -/
def ctxSignals (h : Heap) (c : CtxState) : Addr × Heap :=
  allocList h (h.lists c.signalsA)

/-- `get_current_weights`: `return self._current_weights.copy()`. -/
def ctxGetCurrentWeights (h : Heap) (c : CtxState) : Addr × Heap :=
  allocDict h (h.dicts c.currentWeightsA)

/-- A context is heap-consistent when its cells were allocated: every
internal address is below the bump pointer. -/
def ctxWF (h : Heap) (c : CtxState) : Prop :=
  c.tickersA < h.next ∧ c.signalsA < h.next ∧ c.currentWeightsA < h.next

/-! ### Concrete scenarios used by counterexamples and witnesses -/

/-- A zero-cost configuration (floors only). -/
def c5Cost : CostConfig := ⟨0, 0, 0, 100⟩

/-- Flat 100-priced row over three tickers. -/
def c5Row : List (String × ℚ) := [("A", 100), ("B", 100), ("C", 100)]

/-- Three flat trading days. -/
def c5Prices : PriceData := ⟨["A", "B", "C"], [(0, c5Row), (1, c5Row), (2, c5Row)]⟩

/-- A strategy that, on day 1, asks for 98 / 0.9 / 1.1 — the 0.9-point
delta on B falls under the one-point anti-churn skip while its two
counterweight legs execute, so the executed trades of that rebalance do
not net to zero. -/
def c5Strat (_w : List (String × ℚ)) (d : ℤ) : Option (List (String × ℚ)) :=
  if d = 1 then some [("A", 98), ("B", 9/10), ("C", 11/10)] else none

/-- The dynamic run of the scenario above. -/
def c5Run : DynState :=
  dynRun c5Cost 100000 0 ["A", "B", "C"] [("A", 100)] c5Prices [1] c5Strat

/-! ## Theorems

Helper lemmas first, then one theorem (plus witness or counterexample)
per claim. -/

/-- Lookup in the empty dict gives the default 0. -/
theorem wlookup_nil (k : String) : wlookup [] k = 0 := rfl

/-- Lookup in `p :: l` splits on the head key. -/
theorem wlookup_cons (p : String × ℚ) (l : List (String × ℚ)) (k : String) :
    wlookup (p :: l) k = if p.1 = k then p.2 else wlookup l k := by
  by_cases h : p.1 = k <;> simp [wlookup, List.find?, h]

/-- Row lookup misses in the empty row. -/
theorem rlookup_nil (t : String) : rlookup [] t = none := rfl

/-- Row lookup in `p :: row` splits on the head key. -/
theorem rlookup_cons (p : String × ℚ) (row : List (String × ℚ)) (t : String) :
    rlookup (p :: row) t = if p.1 = t then some p.2 else rlookup row t := by
  by_cases h : p.1 = t <;> simp [rlookup, List.find?, h]

/-- Setting a key then reading it gives the value written. -/
theorem wlookup_aset_self (l : List (String × ℚ)) (k : String) (v : ℚ) :
    wlookup (aset l k v) k = v := by
  induction l with
  | nil => simp [aset, wlookup_cons]
  | cons p r ih =>
    by_cases h : p.1 = k
    · simp [aset, h, wlookup_cons]
    · simp [aset, h, wlookup_cons, ih]

/-- Setting a key leaves every other key's lookup unchanged. -/
theorem wlookup_aset_ne (l : List (String × ℚ)) (k : String) (v : ℚ)
    (j : String) (h : j ≠ k) :
    wlookup (aset l k v) j = wlookup l j := by
  induction l with
  | nil => simp [aset, wlookup_cons, wlookup, Ne.symm h]
  | cons p r ih =>
    by_cases hp : p.1 = k
    · subst hp
      simp [aset, wlookup_cons, Ne.symm h]
    · simp [aset, hp, wlookup_cons, ih]

/-- C3: for every attribute name that begins with an underscore, and for
every name in the dangerous-attribute denylist (`__class__`, `__globals__`,
`__subclasses__`, `f_globals`, `gi_frame`, `co_code`, …), the sandbox
attribute guard `_safe_getattr` raises a contained `AttributeError`
(denies) rather than returning the attribute; the guard never consults the
object, so this holds for any object. -/
theorem C3_attr_guard_denies (name : String)
    (h : startsWithUnderscore name = true ∨ name ∈ dangerous_attrs) :
    (safe_getattr name).isDenied = true := by
  unfold safe_getattr
  by_cases hs : startsWithUnderscore name
  · simp [hs, AttrAccess.isDenied]
  · rcases h with h | h
    · exact absurd h hs
    · simp [hs, h, AttrAccess.isDenied]

/-- Witness for C3 at an underscore name, a dunder denylist name and a
non-underscore denylist name. -/
theorem C3_attr_guard_denies_witness :
    (safe_getattr "_tickers").isDenied = true ∧
    (safe_getattr "__class__").isDenied = true ∧
    (safe_getattr "f_globals").isDenied = true :=
  ⟨C3_attr_guard_denies "_tickers" (Or.inl (by decide)),
   C3_attr_guard_denies "__class__" (Or.inl (by decide)),
   C3_attr_guard_denies "f_globals" (Or.inr (by decide))⟩

/-- C6 fails as stated: `calculate_commission` compares the *signed*
trade value with the floor, so a sell of 200 (trade_value −200, with
`|−200| ≥ min_trade_value = 100`) yields commission 0 where the claim
demands `commission_fixed + commission_pct * 200 = 1/5`. -/
theorem C6_counterexample :
    ¬ |(-200 : ℚ)| < ({} : CostConfig).min_trade_value ∧
    calculate_commission {} (-200) = 0 ∧
    ({} : CostConfig).commission_fixed
      + |(-200 : ℚ)| * ({} : CostConfig).commission_pct = 1/5 := by
  refine ⟨by norm_num, ?_, by norm_num⟩
  unfold calculate_commission
  norm_num

/-- C6 amended: the commission floor is on the signed trade value — zero
below `min_trade_value` (hence zero for every negative trade value) and
`fixed + pct * |v|` at or above it — while the slippage floor is on
`|trade_value|` as claimed; for nonnegative trade values the claim holds
as stated. -/
theorem C6_cost_floors (cfg : CostConfig) (v : ℚ) (vol : Option ℚ) :
    (v < cfg.min_trade_value → calculate_commission cfg v = 0) ∧
    (¬ v < cfg.min_trade_value →
      calculate_commission cfg v = cfg.commission_fixed + |v| * cfg.commission_pct) ∧
    (|v| < cfg.min_trade_value → calculate_slippage cfg v vol = 0) ∧
    (0 ≤ v →
      calculate_commission cfg v =
        if |v| < cfg.min_trade_value then 0
        else cfg.commission_fixed + |v| * cfg.commission_pct) := by
  refine ⟨fun h => ?_, fun h => ?_, fun h => ?_, fun h => ?_⟩
  · simp [calculate_commission, h]
  · simp [calculate_commission, h]
  · simp [calculate_slippage, h]
  · simp [calculate_commission, abs_of_nonneg h]

/-- Witness for C6 amended at the default configuration. -/
theorem C6_cost_floors_witness :
    calculate_commission {} 50 = 0 ∧
    calculate_slippage {} (-50) none = 0 ∧
    calculate_commission {} 200 =
      ({} : CostConfig).commission_fixed + |(200 : ℚ)| * ({} : CostConfig).commission_pct :=
  ⟨(C6_cost_floors {} 50 none).1 (by norm_num),
   (C6_cost_floors {} (-50) none).2.2.1 (by norm_num),
   (C6_cost_floors {} 200 none).2.1 (by norm_num)⟩

/-- C7: for a ticker with an inception date and at least one price point
in the window, the status is Full iff `inception ≤ start` and
(`last_available ≥ end` or the shortfall is at most 5 days), Partial
otherwise; and `missing_start_days = max 0 (inception − start)`. -/
theorem C7_coverage_status (start_date end_date i : ℤ)
    (dataDates : List ℤ) (h : dataDates ≠ []) :
    ((classify_ticker start_date end_date (some i) dataDates).status
        = DataCoverageStatus.full ↔
      i ≤ start_date ∧
        (end_date ≤ dataDates.getLast h ∨ end_date - dataDates.getLast h ≤ 5)) ∧
    ((classify_ticker start_date end_date (some i) dataDates).status
        = DataCoverageStatus.full ∨
      (classify_ticker start_date end_date (some i) dataDates).status
        = DataCoverageStatus.partialCov) ∧
    (classify_ticker start_date end_date (some i) dataDates).missing_start_days
      = max 0 (i - start_date) := by
  match dataDates, h with
  | d :: ds, _ =>
    simp only [classify_ticker]
    split_ifs with hc
    · exact ⟨⟨fun _ => hc, fun _ => rfl⟩, Or.inl rfl, by trivial⟩
    · refine ⟨⟨fun hcon => ?_, fun hcc => absurd hcc hc⟩, Or.inr rfl, by trivial⟩
      simp at hcon

/-- Witness for C7 at the spec's two particulars: inception = start with
last = end gives Full; inception = start + 10 gives Partial with 10
missing start days. -/
theorem C7_coverage_status_witness :
    (classify_ticker 0 100 (some 0) [0, 100]).status = DataCoverageStatus.full ∧
    (classify_ticker 0 100 (some 10) [10, 100]).status = DataCoverageStatus.partialCov ∧
    (classify_ticker 0 100 (some 10) [10, 100]).missing_start_days = 10 := by
  have h1 := C7_coverage_status 0 100 0 [0, 100] (by decide)
  have h2 := C7_coverage_status 0 100 10 [10, 100] (by decide)
  refine ⟨h1.1.mpr (by decide), ?_, ?_⟩
  · rcases h2.2.1 with hf | hp
    · exact absurd (h2.1.mp hf) (by decide)
    · exact hp
  · rw [h2.2.2]
    decide

/-- C9: on a value series with fewer than two points every metric returns
its neutral default without failing — 0 for total return, CAGR, max
drawdown, drawdown duration, volatility, Sharpe, Sortino and Calmar, and
1.0 for beta (also when the benchmark is short or its variance is 0).
This holds for any interpretation of the float `sqrt`/power helpers. -/
theorem C9_short_series_defaults (ops : FloatOps) (cfg : MetricsConfig)
    (values benchmark : Series) (hshort : values.length < 2) :
    total_return values = 0 ∧
    cagr ops values = 0 ∧
    max_drawdown values = 0 ∧
    max_drawdown_duration values = 0 ∧
    volatility ops cfg values true = 0 ∧
    sharpe_ratio ops cfg values = 0 ∧
    sortino_ratio ops cfg values = 0 ∧
    calmar_ratio ops cfg values = 0 ∧
    beta values benchmark = 1 ∧
    (∀ p b : Series, b.length < 2 → beta p b = 1) ∧
    (∀ p b : Series, alignedBenchVar p b = 0 → beta p b = 1) := by
  have hcagr : cagr ops values = 0 := by simp [cagr, hshort]
  have hmdd : max_drawdown values = 0 := by simp [max_drawdown, hshort]
  refine ⟨by simp [total_return, hshort], hcagr, hmdd,
    by simp [max_drawdown_duration, hshort],
    by simp [volatility, hshort],
    by simp [sharpe_ratio, hshort],
    by simp [sortino_ratio, hshort],
    by simp [calmar_ratio, hcagr, hmdd],
    by simp [beta, hshort],
    fun p b hb => by simp [beta, hb],
    fun p b hv => ?_⟩
  by_cases hlen : p.length < 2 ∨ b.length < 2
  · simp [beta, hlen]
  · simp [beta, hlen, hv]

/-- Witness for C9 on an empty series, a short benchmark, and a constant
(zero-variance) benchmark. -/
theorem C9_short_series_defaults_witness :
    total_return [] = 0 ∧
    calmar_ratio ⟨id, fun a _ => a⟩ {} [] = 0 ∧
    beta [] [(0, 1)] = 1 ∧
    beta [(0, 1), (1, 2), (2, 3)] [(0, 5)] = 1 ∧
    beta [(0, 1), (1, 2), (2, 3)] [(0, 5), (1, 5), (2, 5)] = 1 := by
  have h := C9_short_series_defaults ⟨id, fun a _ => a⟩ {} [] [(0, 1)]
    (by simp)
  exact ⟨h.1, h.2.2.2.2.2.2.2.1, h.2.2.2.2.2.2.2.2.1,
    h.2.2.2.2.2.2.2.2.2.1 _ _ (by simp),
    h.2.2.2.2.2.2.2.2.2.2 _ _ (by
      norm_num [alignedBenchVar, alignPair, pctChange, sampleVar, listMean,
        List.filter, List.contains])⟩

/-- The validator's three ticker lists count exactly the inputs whose
classification lands on the corresponding status. -/
theorem coverageLists_lengths (sd ed : ℤ) (inputs : List TickerData) :
    (coverageLists sd ed inputs).1.length
        = inputs.countP (fun i =>
            decide ((classify_ticker sd ed i.2.1 i.2.2).status = DataCoverageStatus.noData)) ∧
    (coverageLists sd ed inputs).2.1.length
        = inputs.countP (fun i =>
            decide ((classify_ticker sd ed i.2.1 i.2.2).status = DataCoverageStatus.partialCov)) ∧
    (coverageLists sd ed inputs).2.2.length
        = inputs.countP (fun i =>
            decide ((classify_ticker sd ed i.2.1 i.2.2).status = DataCoverageStatus.full)) := by
  induction inputs with
  | nil => simp [coverageLists]
  | cons x rest ih =>
    obtain ⟨tk, inc, ds⟩ := x
    simp only [coverageLists]
    rcases hst : (classify_ticker sd ed inc ds).status with _ | _ | _ <;>
      simp [hst, List.countP_cons, ih.1, ih.2.1, ih.2.2]

/-- The severity ladder of `get_severity_level`, for any result whose
validity flag agrees with its usable-ticker count (as the validator
constructs it). -/
theorem severity_cases (r : DataValidationResult)
    (hv : r.is_valid = decide (0 < r.usable_tickers_count)) :
    (r.usable_tickers_count = 0 → r.get_severity_level = "critical") ∧
    (0 < r.usable_tickers_count → r.excluded_tickers ≠ [] →
      r.get_severity_level = "error") ∧
    (0 < r.usable_tickers_count → r.excluded_tickers = [] →
      r.partial_tickers ≠ [] → r.get_severity_level = "warning") ∧
    (0 < r.usable_tickers_count → r.excluded_tickers = [] →
      r.partial_tickers = [] → r.get_severity_level = "success") := by
  unfold DataValidationResult.get_severity_level
  refine ⟨fun h0 => ?_, fun hu he => ?_, fun hu he hp => ?_, fun hu he hp => ?_⟩
  · rw [hv]
    simp [h0]
  · rw [hv]
    simp [hu, DataValidationResult.has_excluded_tickers, List.length_pos, he]
  · rw [hv]
    simp [hu, DataValidationResult.has_excluded_tickers,
      DataValidationResult.has_partial_tickers, List.length_pos, he, hp]
  · rw [hv]
    simp [hu, DataValidationResult.has_excluded_tickers,
      DataValidationResult.has_partial_tickers, he, hp]

/-- C8: run-level validity holds exactly when some input classifies Full
or Partial, and the severity ladder reads critical / error / warning /
success as claimed. -/
theorem C8_validity_and_severity (sd ed : ℤ) (inputs : List TickerData) :
    ((validate_data_coverage sd ed inputs).is_valid = true ↔
      0 < inputs.countP (fun i =>
            decide ((classify_ticker sd ed i.2.1 i.2.2).status = DataCoverageStatus.full))
          + inputs.countP (fun i =>
            decide ((classify_ticker sd ed i.2.1 i.2.2).status = DataCoverageStatus.partialCov))) ∧
    ((validate_data_coverage sd ed inputs).usable_tickers_count = 0 →
      (validate_data_coverage sd ed inputs).get_severity_level = "critical") ∧
    (0 < (validate_data_coverage sd ed inputs).usable_tickers_count →
      (validate_data_coverage sd ed inputs).excluded_tickers ≠ [] →
      (validate_data_coverage sd ed inputs).get_severity_level = "error") ∧
    (0 < (validate_data_coverage sd ed inputs).usable_tickers_count →
      (validate_data_coverage sd ed inputs).excluded_tickers = [] →
      (validate_data_coverage sd ed inputs).partial_tickers ≠ [] →
      (validate_data_coverage sd ed inputs).get_severity_level = "warning") ∧
    (0 < (validate_data_coverage sd ed inputs).usable_tickers_count →
      (validate_data_coverage sd ed inputs).excluded_tickers = [] →
      (validate_data_coverage sd ed inputs).partial_tickers = [] →
      (validate_data_coverage sd ed inputs).get_severity_level = "success") := by
  have hc := coverageLists_lengths sd ed inputs
  have hlad := severity_cases (validate_data_coverage sd ed inputs) rfl
  refine ⟨?_, hlad.1, hlad.2.1, hlad.2.2.1, hlad.2.2.2⟩
  show decide (0 < (coverageLists sd ed inputs).2.1.length
      + (coverageLists sd ed inputs).2.2.length) = true ↔ _
  rw [decide_eq_true_eq, hc.2.1, hc.2.2, Nat.add_comm]

/-- Witness for C8 at the spec scenario: one ticker excluded as NoData and
one Full ticker give severity `error` with one usable ticker (and a valid
run). -/
theorem C8_validity_and_severity_witness :
    (validate_data_coverage 0 9 [("BAD", none, []), ("GOOD", some 0, [0, 9])]).get_severity_level
      = "error" ∧
    (validate_data_coverage 0 9 [("BAD", none, []), ("GOOD", some 0, [0, 9])]).usable_tickers_count
      = 1 ∧
    (validate_data_coverage 0 9 [("BAD", none, []), ("GOOD", some 0, [0, 9])]).is_valid
      = true := by
  have h := C8_validity_and_severity 0 9 [("BAD", none, []), ("GOOD", some 0, [0, 9])]
  exact ⟨h.2.2.1 (by decide) (by decide), by decide, h.1.mpr (by decide)⟩

/-- Rescaling every weight by `/ t * c` rescales the sum the same way. -/
theorem sumWeights_map_div_mul (l : List (String × ℚ)) (t c : ℚ) :
    sumWeights (l.map (fun p => (p.1, p.2 / t * c))) = sumWeights l / t * c := by
  induction l with
  | nil => simp [sumWeights]
  | cons p r ih =>
    simp only [List.map_cons, List.sum_cons, sumWeights] at ih ⊢
    rw [ih]
    ring

/-- Every pair the filtering loop keeps has a known ticker. -/
theorem filter_weights_subset (tickers : List String) (w : List (String × ℚ)) :
    ∀ p ∈ (filter_weights tickers w).1, p.1 ∈ tickers := by
  induction w with
  | nil => simp [filter_weights]
  | cons q rest ih =>
    obtain ⟨t, wt⟩ := q
    intro p hp
    by_cases h : t ∈ tickers
    · simp only [filter_weights, if_pos h, List.mem_cons] at hp
      rcases hp with hp | hp
      · rw [hp]
        exact h
      · exact ih p hp
    · simp only [filter_weights, if_neg h] at hp
      exact ih p hp

/-- C1 fails as stated on an empty weight vector: the source takes the
`if normalize and filtered_weights` branch only when the filtered dict is
*truthy*, so an empty vector stores an **empty** allocation with no
warning, instead of keeping the prior weights. -/
theorem C1_counterexample :
    (set_target_weights ["A"] [("A", 100)] [] [] true).1 ≠ [("A", (100 : ℚ))] ∧
    (set_target_weights ["A"] [("A", 100)] [] [] true).1 = [] ∧
    (set_target_weights ["A"] [("A", 100)] [] [] true).2 = [] := by
  refine ⟨?_, rfl, rfl⟩
  intro h
  exact absurd h (by simp [set_target_weights, filter_weights])

/-- C1 amended: with `normalize = true`, unknown tickers are dropped and
negative weights clamped; when the surviving weights have a positive sum
the stored target sums to exactly 100 and names only known tickers; when
they are nonempty with sum zero the prior weights are kept and a warning
line is appended; when they are empty (empty vector, or only unknown
tickers) the stored target is the empty allocation. -/
theorem C1_set_target_weights (tickers : List String)
    (cw : List (String × ℚ)) (sigs : List String)
    (weights : List (String × ℚ)) :
    (0 < sumWeights (filter_weights tickers weights).1 →
      sumWeights (set_target_weights tickers cw sigs weights true).1 = 100 ∧
      ∀ p ∈ (set_target_weights tickers cw sigs weights true).1, p.1 ∈ tickers) ∧
    ((filter_weights tickers weights).1 ≠ [] →
      ¬ 0 < sumWeights (filter_weights tickers weights).1 →
      (set_target_weights tickers cw sigs weights true).1 = cw ∧
      sigs.length < (set_target_weights tickers cw sigs weights true).2.length) ∧
    ((filter_weights tickers weights).1 = [] →
      (set_target_weights tickers cw sigs weights true).1 = []) := by
  refine ⟨fun hpos => ?_, fun hne hnpos => ?_, fun hemp => ?_⟩
  · have hne : (filter_weights tickers weights).1 ≠ [] := by
      intro h
      rw [h] at hpos
      simp [sumWeights] at hpos
    have htgt : (set_target_weights tickers cw sigs weights true).1
        = (filter_weights tickers weights).1.map
            (fun p => (p.1, p.2 / sumWeights (filter_weights tickers weights).1 * 100)) := by
      simp [set_target_weights, hne, hpos]
    constructor
    · rw [htgt, sumWeights_map_div_mul, div_self (ne_of_gt hpos), one_mul]
    · intro p hp
      rw [htgt] at hp
      obtain ⟨q, hq, hqe⟩ := List.mem_map.mp hp
      rw [← hqe]
      exact filter_weights_subset tickers weights q hq
  · have hres : set_target_weights tickers cw sigs weights true
        = (cw, sigs ++ (filter_weights tickers weights).2
            ++ ["all weights zero, keeping current allocation"]) := by
      simp [set_target_weights, hne, hnpos]
    rw [hres]
    refine ⟨rfl, ?_⟩
    simp [List.length_append]
  · simp [set_target_weights, hemp]

/-- Witness for C1 amended: a mixed vector with a positive surviving sum
normalizes to exactly 100 over known tickers; a clamped all-negative
vector keeps the prior weights with a warning; an all-unknown vector
stores the empty allocation. -/
theorem C1_set_target_weights_witness :
    (sumWeights (set_target_weights ["A", "B"] [("B", 100)] [] [("A", 30), ("B", 10)] true).1 = 100 ∧
      ∀ p ∈ (set_target_weights ["A", "B"] [("B", 100)] [] [("A", 30), ("B", 10)] true).1,
        p.1 ∈ ["A", "B"]) ∧
    (set_target_weights ["A"] [("A", 100)] [] [("A", -5)] true).1 = [("A", 100)] ∧
    (set_target_weights ["A"] [("A", 100)] [] [("Z", 50)] true).1 = [] := by
  refine ⟨?_, ?_, ?_⟩
  · exact (C1_set_target_weights ["A", "B"] [("B", 100)] [] [("A", 30), ("B", 10)]).1
      (by norm_num [filter_weights, sumWeights, max_def])
  · exact ((C1_set_target_weights ["A"] [("A", 100)] [] [("A", -5)]).2.1
      (by decide)
      (by norm_num [filter_weights, sumWeights, max_def])).1
  · exact (C1_set_target_weights ["A"] [("A", 100)] [] [("Z", 50)]).2.2
      (by decide)

/-- C2: an error raised inside a user script is contained —
`StrategyEngine.execute` returns a failed `StrategyResult` whose target
weights are exactly the current weights it was given (never raising), and
a rebalance step of the backtest loop whose strategy invocation fails
(returns nothing or raises) leaves the position ledger and the trade log
untouched, so the run continues on the previous weights. -/
theorem C2_script_errors_contained (m : String) (cw : List (String × ℚ))
    (cost : CostConfig) (available : List String) (rds : List ℤ)
    (strat : List (String × ℚ) → ℤ → Option (List (String × ℚ)))
    (st : DynState) (drow : ℤ × List (String × ℚ))
    (hfail : strat (mtmWeights st available drow.2) drow.1 = none) :
    (strategyExecute (.err m) cw).success = false ∧
    (strategyExecute (.err m) cw).target_weights = cw ∧
    (dynStep cost available rds strat st drow).positions = st.positions ∧
    (dynStep cost available rds strat st drow).trades = st.trades := by
  refine ⟨rfl, rfl, ?_, ?_⟩ <;>
  · by_cases hd : drow.1 ∈ rds
    · simp [dynStep, hd, hfail]
    · simp [dynStep, hd]

/-- Witness for C2 at a concrete failing invocation. -/
theorem C2_script_errors_contained_witness :
    (strategyExecute (.err "boom") [("A", 50)]).success = false ∧
    (strategyExecute (.err "boom") [("A", 50)]).target_weights = [("A", 50)] ∧
    (dynStep {} ["A"] [0] (fun _ _ => none) ⟨[("A", 1)], [], 0, [], [], false⟩
      (0, [("A", 10)])).positions = [("A", 1)] ∧
    (dynStep {} ["A"] [0] (fun _ _ => none) ⟨[("A", 1)], [], 0, [], [], false⟩
      (0, [("A", 10)])).trades = [] :=
  C2_script_errors_contained "boom" [("A", 50)] {} ["A"] [0] (fun _ _ => none)
    ⟨[("A", 1)], [], 0, [], [], false⟩ (0, [("A", 10)]) rfl

/-- C10: the context hands out only defensive copies — the `tickers` and
`signals` properties and `get_current_weights` return fresh cells whose
contents equal the internals, and in-place mutation of a returned cell
never changes an internal cell; the constructor copies the caller's
weights dict, so later mutation of the caller's dict does not reach the
context either. -/
theorem C10_defensive_copies (h : Heap) (c : CtxState) (hwf : ctxWF h c)
    (hin : Heap) (tickersArg cwArg : Addr) (hlt : cwArg < hin.next) :
    ((ctxTickers h c).2.lists (ctxTickers h c).1 = h.lists c.tickersA) ∧
    (∀ v : List String,
      (writeList (ctxTickers h c).2 (ctxTickers h c).1 v).lists c.tickersA
          = h.lists c.tickersA ∧
      (writeList (ctxTickers h c).2 (ctxTickers h c).1 v).lists c.signalsA
          = h.lists c.signalsA ∧
      (writeList (ctxTickers h c).2 (ctxTickers h c).1 v).dicts c.currentWeightsA
          = h.dicts c.currentWeightsA) ∧
    ((ctxSignals h c).2.lists (ctxSignals h c).1 = h.lists c.signalsA) ∧
    (∀ v : List String,
      (writeList (ctxSignals h c).2 (ctxSignals h c).1 v).lists c.signalsA
          = h.lists c.signalsA) ∧
    ((ctxGetCurrentWeights h c).2.dicts (ctxGetCurrentWeights h c).1
        = h.dicts c.currentWeightsA) ∧
    (∀ v : List (String × ℚ),
      (writeDict (ctxGetCurrentWeights h c).2 (ctxGetCurrentWeights h c).1 v).dicts
          c.currentWeightsA = h.dicts c.currentWeightsA) ∧
    ((ctxInit hin tickersArg cwArg).2.dicts
        (ctxInit hin tickersArg cwArg).1.currentWeightsA = hin.dicts cwArg) ∧
    (∀ v : List (String × ℚ),
      (writeDict (ctxInit hin tickersArg cwArg).2 cwArg v).dicts
          (ctxInit hin tickersArg cwArg).1.currentWeightsA = hin.dicts cwArg) := by
  obtain ⟨h1, h2, h3⟩ := hwf
  have n1 : c.tickersA ≠ h.next := Nat.ne_of_lt h1
  have n2 : c.signalsA ≠ h.next := Nat.ne_of_lt h2
  have n3 : c.currentWeightsA ≠ h.next := Nat.ne_of_lt h3
  have n4 : hin.next ≠ cwArg := (Nat.ne_of_lt hlt).symm
  refine ⟨?_, fun v => ⟨?_, ?_, ?_⟩, ?_, fun v => ?_, ?_, fun v => ?_, ?_, fun v => ?_⟩ <;>
    simp [ctxTickers, ctxSignals, ctxGetCurrentWeights, ctxInit,
      allocList, allocDict, writeList, writeDict, n1, n2, n3, n4]

/-- Witness for C10 on a small concrete heap. -/
theorem C10_defensive_copies_witness :
    ((ctxTickers ⟨3, fun _ => [], fun _ => []⟩ ⟨0, 1, 2⟩).2.lists
        (ctxTickers ⟨3, fun _ => [], fun _ => []⟩ ⟨0, 1, 2⟩).1 = [] ) ∧
    (∀ v : List String,
      (writeList (ctxTickers ⟨3, fun _ => [], fun _ => []⟩ ⟨0, 1, 2⟩).2
          (ctxTickers ⟨3, fun _ => [], fun _ => []⟩ ⟨0, 1, 2⟩).1 v).lists 0 = []) :=
  ⟨(C10_defensive_copies ⟨3, fun _ => [], fun _ => []⟩ ⟨0, 1, 2⟩
      ⟨by decide, by decide, by decide⟩ ⟨3, fun _ => [], fun _ => []⟩ 0 1 (by decide)).1,
   fun v => ((C10_defensive_copies ⟨3, fun _ => [], fun _ => []⟩ ⟨0, 1, 2⟩
      ⟨by decide, by decide, by decide⟩ ⟨3, fun _ => [], fun _ => []⟩ 0 1 (by decide)).2.1 v).1⟩

/-- C4 fails as stated for the dynamic entry point: a zero-sum initial
weight vector does not fail the run — `run_dynamic` silently replaces it
with an equal-weight allocation and reports success. -/
theorem C4_counterexample :
    sumWeights [("A", (0 : ℚ))] = 0 ∧
    (run_dynamic {} 100000 0 ["A"] [("A", 0)] ⟨["A"], [(0, [("A", 100)])]⟩ []
      (fun _ _ => none)).success = true := by
  constructor
  · simp [sumWeights]
  · rfl

/-- C4 amended: `run_static` returns an unsuccessful result with a
non-empty message whenever the weights sum to zero, the fetched price
data is empty, or no requested ticker survives into the price columns;
`run_dynamic` does so for the latter two conditions, but replaces a
zero-sum initial weight vector with equal weights and (when data and
tickers are available) reports success. -/
theorem C4_engine_failure_guards (cost : CostConfig) (capital : ℚ) (sd : ℤ)
    (tickers : List String) (w iw : List (String × ℚ)) (prices : PriceData)
    (rds : List ℤ)
    (strat : List (String × ℚ) → ℤ → Option (List (String × ℚ))) :
    (sumWeights w = 0 ∨ prices.rows = [] ∨
        tickers.filter (fun t => t ∈ prices.columns) = [] →
      (run_static capital tickers w prices).success = false ∧
      (run_static capital tickers w prices).message ≠ "") ∧
    (prices.rows = [] ∨ tickers.filter (fun t => t ∈ prices.columns) = [] →
      (run_dynamic cost capital sd tickers iw prices rds strat).success = false ∧
      (run_dynamic cost capital sd tickers iw prices rds strat).message ≠ "") ∧
    (sumWeights iw = 0 →
      prices.rows.filter (fun r => decide (sd ≤ r.1)) ≠ [] →
      tickers.filter (fun t => t ∈ prices.columns) ≠ [] →
      (run_dynamic cost capital sd tickers iw prices rds strat).success = true) := by
  refine ⟨fun hcase => ?_, fun hcase => ?_, fun hz hrows hav => ?_⟩
  · by_cases h0 : sumWeights w = 0
    · simp [run_static, h0]
    · by_cases h1 : prices.rows = []
      · simp [run_static, h0, h1]
      · have h2 : tickers.filter (fun t => t ∈ prices.columns) = [] := by tauto
        simp [run_static, h0, h1, h2]
  · by_cases h1 : prices.rows = []
    · simp [run_dynamic, h1]
    · have h2 : tickers.filter (fun t => t ∈ prices.columns) = [] := by tauto
      rcases hf : prices.rows.filter (fun r => decide (sd ≤ r.1)) with _ | ⟨a, l⟩
      · simp [run_dynamic, h1, hf]
      · simp [run_dynamic, h1, hf, h2]
  · have h1 : prices.rows ≠ [] := by
      intro h
      rw [h] at hrows
      simp at hrows
    rcases hf : prices.rows.filter (fun r => decide (sd ≤ r.1)) with _ | ⟨a, l⟩
    · exact absurd hf hrows
    · simp [run_dynamic, h1, hf, hav]

/-- Witness for C4 amended at concrete runs triggering each guard. -/
theorem C4_engine_failure_guards_witness :
    ((run_static 100000 ["A"] [("A", 0)] ⟨["A"], [(0, [("A", 100)])]⟩).success = false ∧
      (run_static 100000 ["A"] [("A", 0)] ⟨["A"], [(0, [("A", 100)])]⟩).message ≠ "") ∧
    ((run_dynamic {} 100000 0 ["A"] [("A", 1)] ⟨["A"], []⟩ [] (fun _ _ => none)).success = false ∧
      (run_dynamic {} 100000 0 ["A"] [("A", 1)] ⟨["A"], []⟩ [] (fun _ _ => none)).message ≠ "") ∧
    (run_dynamic {} 100000 0 ["A"] [("A", 0)] ⟨["A"], [(0, [("A", 100)])]⟩ []
      (fun _ _ => none)).success = true := by
  refine ⟨?_, ?_, ?_⟩
  · exact (C4_engine_failure_guards {} 100000 0 ["A"] [("A", 0)] [("A", 0)]
      ⟨["A"], [(0, [("A", 100)])]⟩ [] (fun _ _ => none)).1
      (Or.inl (by simp [sumWeights]))
  · exact (C4_engine_failure_guards {} 100000 0 ["A"] [("A", 1)] [("A", 1)]
      ⟨["A"], []⟩ [] (fun _ _ => none)).2.1 (Or.inl rfl)
  · exact (C4_engine_failure_guards {} 100000 0 ["A"] [("A", 0)] [("A", 0)]
      ⟨["A"], [(0, [("A", 100)])]⟩ [] (fun _ _ => none)).2.2
      (by simp [sumWeights]) (by decide) (by decide)

/-- Replaying a BUY adds its shares to the ticker and pays value and cost
from cash. -/
theorem replayStep_buy (rpos : List (String × ℚ)) (c : ℚ) (d : ℤ) (t : String)
    (sh pr v co : ℚ) :
    replayStep (rpos, c) ⟨d, t, "BUY", sh, pr, v, co⟩
      = (aset rpos t (wlookup rpos t + sh), c - v - co) := by
  simp [replayStep]

/-- Replaying a SELL removes its shares and collects value minus cost. -/
theorem replayStep_sell (rpos : List (String × ℚ)) (c : ℚ) (d : ℤ) (t : String)
    (sh pr v co : ℚ) :
    replayStep (rpos, c) ⟨d, t, "SELL", sh, pr, v, co⟩
      = (aset rpos t (wlookup rpos t - sh), c + v - co) := by
  simp [replayStep]

/-- The all-zero position map made by `run_dynamic` reads 0 everywhere. -/
theorem wlookup_map_zero (l : List String) (tk : String) :
    wlookup (l.map (fun t => (t, (0 : ℚ)))) tk = 0 := by
  induction l with
  | nil => rfl
  | cons a l ih =>
    rw [List.map_cons, wlookup_cons]
    split <;> simp [ih]

/-- Replaying the trades of the initial-purchase loop reconstructs the
positions it builds, for a duplicate-free ticker list whose unprocessed
positions are zero. -/
theorem initialBuy_replay (cost : CostConfig) (cw : List (String × ℚ))
    (cash : ℚ) (d : ℤ) (firstRow : List (String × ℚ)) :
    ∀ (ts : List String) (pos rpos : List (String × ℚ)) (c : ℚ),
      ts.Nodup →
      (∀ t ∈ ts, wlookup pos t = 0) →
      (∀ tk, wlookup rpos tk = wlookup pos tk) →
      ∀ tk,
        wlookup ((initialBuyLoop cost cw cash d firstRow ts pos).2.foldl
          replayStep (rpos, c)).1 tk
          = wlookup (initialBuyLoop cost cw cash d firstRow ts pos).1 tk := by
  intro ts
  induction ts with
  | nil =>
    intro pos rpos c _ _ hinv tk
    simpa [initialBuyLoop] using hinv tk
  | cons t ts ih =>
    intro pos rpos c hnd h0 hinv tk
    rw [List.nodup_cons] at hnd
    by_cases hw : 0 < wlookup cw t / 100
    · simp only [initialBuyLoop, if_pos hw, List.foldl_cons, replayStep_buy]
      apply ih
      · exact hnd.2
      · intro u hu
        rw [wlookup_aset_ne pos t _ u (fun he => hnd.1 (he ▸ hu))]
        exact h0 u (List.mem_cons_of_mem t hu)
      · intro u
        by_cases hu : u = t
        · subst hu
          rw [wlookup_aset_self, wlookup_aset_self, hinv u,
            h0 u (List.mem_cons_self u ts), zero_add]
        · rw [wlookup_aset_ne rpos t _ u hu, wlookup_aset_ne pos t _ u hu]
          exact hinv u
    · simp only [initialBuyLoop, if_neg hw]
      apply ih
      · exact hnd.2
      · exact fun u hu => h0 u (List.mem_cons_of_mem t hu)
      · exact hinv

/-- Replaying the trades of one rebalancing loop reconstructs the position
map it produces, provided the loop reported no sell clamped at zero and
the row's prices are nonnegative. -/
theorem rebalance_replay (cost : CostConfig) (d : ℤ)
    (row pvals : List (String × ℚ)) (tv : ℚ) (cw target : List (String × ℚ)) :
    ∀ (ts : List String) (pos rpos : List (String × ℚ)) (c : ℚ),
      (∀ t ∈ ts, 0 ≤ (rlookup row t).getD 0) →
      (rebalanceLoop cost d row pvals tv cw target ts pos).2.2 = false →
      (∀ tk, wlookup rpos tk = wlookup pos tk) →
      ∀ tk,
        wlookup ((rebalanceLoop cost d row pvals tv cw target ts pos).2.1.foldl
          replayStep (rpos, c)).1 tk
          = wlookup (rebalanceLoop cost d row pvals tv cw target ts pos).1 tk := by
  intro ts
  induction ts with
  | nil =>
    intro pos rpos c _ _ hinv tk
    simpa [rebalanceLoop] using hinv tk
  | cons t ts ih =>
    intro pos rpos c hpr hcl hinv tk
    have hpr' : ∀ u ∈ ts, 0 ≤ (rlookup row u).getD 0 :=
      fun u hu => hpr u (List.mem_cons_of_mem t hu)
    by_cases h1 : |wlookup target t - wlookup cw t| < 1
    · simp only [rebalanceLoop, if_pos h1] at hcl ⊢
      exact ih pos rpos c hpr' hcl hinv tk
    · by_cases h2 : |tv * (wlookup target t / 100) - wlookup pvals t| < 100
      · simp only [rebalanceLoop, if_neg h1, if_pos h2] at hcl ⊢
        exact ih pos rpos c hpr' hcl hinv tk
      · have hprt : 0 ≤ (rlookup row t).getD 0 := hpr t (List.mem_cons_self t ts)
        by_cases h3 : 0 < tv * (wlookup target t / 100) - wlookup pvals t
        · simp only [rebalanceLoop, if_neg h1, if_neg h2, if_pos h3,
            Bool.false_or] at hcl ⊢
          rw [List.foldl_cons, replayStep_buy]
          have hsc : 0 ≤ (tv * (wlookup target t / 100) - wlookup pvals t)
              / (rlookup row t).getD 0 :=
            div_nonneg (le_of_lt h3) hprt
          apply ih _ _ _ hpr' hcl
          intro u
          by_cases hu : u = t
          · subst hu
            rw [wlookup_aset_self, wlookup_aset_self, hinv u, abs_of_nonneg hsc]
          · rw [wlookup_aset_ne rpos t _ u hu, wlookup_aset_ne pos t _ u hu]
            exact hinv u
        · simp only [rebalanceLoop, if_neg h1, if_neg h2, if_neg h3,
            Bool.or_eq_false_iff, decide_eq_false_iff_not, not_lt] at hcl ⊢
          rw [List.foldl_cons, replayStep_sell]
          have hsc : (tv * (wlookup target t / 100) - wlookup pvals t)
              / (rlookup row t).getD 0 ≤ 0 :=
            div_nonpos_iff.mpr (Or.inr ⟨le_of_not_lt h3, hprt⟩)
          have hmax : max 0 (wlookup pos t
              + (tv * (wlookup target t / 100) - wlookup pvals t)
                / (rlookup row t).getD 0)
              = wlookup pos t
                + (tv * (wlookup target t / 100) - wlookup pvals t)
                  / (rlookup row t).getD 0 :=
            max_eq_right hcl.1
          rw [hmax] at hcl ⊢
          apply ih _ _ _ hpr' hcl.2
          intro u
          by_cases hu : u = t
          · subst hu
            rw [wlookup_aset_self, wlookup_aset_self, hinv u, abs_of_nonpos hsc]
            ring
          · rw [wlookup_aset_ne rpos t _ u hu, wlookup_aset_ne pos t _ u hu]
            exact hinv u

/-- Once a sell has clamped, the instrumentation flag stays set. -/
theorem dynStep_flag_mono (cost : CostConfig) (available : List String)
    (rds : List ℤ) (strat : List (String × ℚ) → ℤ → Option (List (String × ℚ)))
    (st : DynState) (drow : ℤ × List (String × ℚ))
    (h : st.sell_clamped = true) :
    (dynStep cost available rds strat st drow).sell_clamped = true := by
  by_cases hd : drow.1 ∈ rds
  · cases hs : strat (mtmWeights st available drow.2) drow.1 with
    | none => simp [dynStep, hd, hs, h]
    | some tg => simp [dynStep, hd, hs, h]
  · simp [dynStep, hd, h]

/-- One day of the simulation preserves the replay invariant: if replaying
the trade log so far reconstructs the positions, it still does after the
day, provided no sell clamped and the day's prices are nonnegative. -/
theorem dynStep_replay (cost : CostConfig) (available : List String)
    (rds : List ℤ) (strat : List (String × ℚ) → ℤ → Option (List (String × ℚ)))
    (capital : ℚ) (st : DynState) (drow : ℤ × List (String × ℚ))
    (hrow : ∀ t ∈ available, 0 ≤ (rlookup drow.2 t).getD 0)
    (hcl : (dynStep cost available rds strat st drow).sell_clamped = false)
    (hinv : ∀ tk, wlookup (replayTrades capital st.trades).1 tk
        = wlookup st.positions tk) :
    ∀ tk, wlookup (replayTrades capital
        (dynStep cost available rds strat st drow).trades).1 tk
      = wlookup (dynStep cost available rds strat st drow).positions tk := by
  by_cases hd : drow.1 ∈ rds
  · cases hs : strat (mtmWeights st available drow.2) drow.1 with
    | none =>
      intro tk
      simpa [dynStep, hd, hs] using hinv tk
    | some tg =>
      intro tk
      simp only [dynStep, if_pos hd, hs] at hcl ⊢
      rw [Bool.or_eq_false_iff] at hcl
      rw [replayTrades, List.foldl_append]
      exact rebalance_replay cost drow.1 drow.2 _ _ _ _ available st.positions
        (replayTrades capital st.trades).1 (replayTrades capital st.trades).2
        hrow hcl.2 hinv tk
  · intro tk
    simpa [dynStep, hd] using hinv tk

/-- Flag monotonicity over the whole daily fold. -/
theorem dynFold_flag_mono (cost : CostConfig) (available : List String)
    (rds : List ℤ) (strat : List (String × ℚ) → ℤ → Option (List (String × ℚ))) :
    ∀ (rows : List (ℤ × List (String × ℚ))) (st : DynState),
      st.sell_clamped = true →
      (rows.foldl (dynStep cost available rds strat) st).sell_clamped = true := by
  intro rows
  induction rows with
  | nil => exact fun st h => h
  | cons r rows ih =>
    intro st h
    rw [List.foldl_cons]
    exact ih _ (dynStep_flag_mono cost available rds strat st r h)

/-- The replay invariant carried through the whole daily fold. -/
theorem dynFold_replay (cost : CostConfig) (available : List String)
    (rds : List ℤ) (strat : List (String × ℚ) → ℤ → Option (List (String × ℚ)))
    (capital : ℚ) :
    ∀ (rows : List (ℤ × List (String × ℚ))) (st : DynState),
      (∀ r ∈ rows, ∀ t ∈ available, 0 ≤ (rlookup r.2 t).getD 0) →
      (rows.foldl (dynStep cost available rds strat) st).sell_clamped = false →
      (∀ tk, wlookup (replayTrades capital st.trades).1 tk
          = wlookup st.positions tk) →
      ∀ tk, wlookup (replayTrades capital
          ((rows.foldl (dynStep cost available rds strat) st)).trades).1 tk
        = wlookup ((rows.foldl (dynStep cost available rds strat) st)).positions tk := by
  intro rows
  induction rows with
  | nil => exact fun st _ _ hinv => hinv
  | cons r rows ih =>
    intro st hpr hcl hinv
    rw [List.foldl_cons] at hcl ⊢
    have hcl1 : (dynStep cost available rds strat st r).sell_clamped = false := by
      by_contra hcon
      rw [Bool.not_eq_false] at hcon
      rw [dynFold_flag_mono cost available rds strat rows _ hcon] at hcl
      exact absurd hcl (by simp)
    exact ih (dynStep cost available rds strat st r)
      (fun u hu => hpr u (List.mem_cons_of_mem r hu)) hcl
      (dynStep_replay cost available rds strat capital st r
        (hpr r (List.mem_cons_self r rows)) hcl1 hinv)

/-- C5 amended: replaying the recorded trade log from the initial capital
reconstructs the final position ledger of a completed dynamic backtest,
for any duplicate-free ticker set and nonnegative prices, whenever no SELL
was clamped at zero shares; and whenever `run_dynamic` reports success,
the final ledger it carries is exactly the simulated one. (The last value
of the recorded series is *not* reconstructed in general — see the
counterexample.) -/
theorem C5_trade_replay (cost : CostConfig) (capital : ℚ) (sd : ℤ)
    (tickers : List String) (iw : List (String × ℚ)) (prices : PriceData)
    (rds : List ℤ) (strat : List (String × ℚ) → ℤ → Option (List (String × ℚ)))
    (hnd : (tickers.filter (fun t => t ∈ prices.columns)).Nodup)
    (hpr : ∀ r ∈ prices.rows, ∀ t ∈ tickers.filter (fun t => t ∈ prices.columns),
      0 ≤ (rlookup r.2 t).getD 0)
    (hcl : (dynRun cost capital sd tickers iw prices rds strat).sell_clamped = false) :
    (∀ tk, wlookup (replayTrades capital
        (dynRun cost capital sd tickers iw prices rds strat).trades).1 tk
      = wlookup (dynRun cost capital sd tickers iw prices rds strat).positions tk) ∧
    ((run_dynamic cost capital sd tickers iw prices rds strat).success = true →
      (run_dynamic cost capital sd tickers iw prices rds strat).finalState
        = some (dynRun cost capital sd tickers iw prices rds strat)) := by
  constructor
  · unfold dynRun at hcl ⊢
    apply dynFold_replay
    · intro r hr t ht
      exact hpr r (List.mem_of_mem_filter hr) t ht
    · exact hcl
    · intro tk
      simp only [dynInit, replayTrades]
      apply initialBuy_replay
      · exact hnd
      · exact fun t _ => wlookup_map_zero _ t
      · intro u
        rw [wlookup_map_zero]
        rfl
  · by_cases h1 : prices.rows = []
    · simp [run_dynamic, h1]
    · rcases hf : prices.rows.filter (fun r => decide (sd ≤ r.1)) with _ | ⟨a, l⟩
      · simp [run_dynamic, h1, hf]
      · by_cases h2 : tickers.filter (fun t => t ∈ prices.columns) = []
        · simp [run_dynamic, h1, hf, h2]
        · simp [run_dynamic, h1, hf, h2]

/-- Witness for C5 amended on a one-ticker buy-and-hold run. -/
theorem C5_trade_replay_witness :
    wlookup (replayTrades 100000 (dynRun {} 100000 0 ["A"] [("A", 100)]
        ⟨["A"], [(0, [("A", 100)])]⟩ [] (fun _ _ => none)).trades).1 "A"
      = wlookup (dynRun {} 100000 0 ["A"] [("A", 100)]
        ⟨["A"], [(0, [("A", 100)])]⟩ [] (fun _ _ => none)).positions "A" ∧
    (run_dynamic {} 100000 0 ["A"] [("A", 100)]
        ⟨["A"], [(0, [("A", 100)])]⟩ [] (fun _ _ => none)).finalState
      = some (dynRun {} 100000 0 ["A"] [("A", 100)]
        ⟨["A"], [(0, [("A", 100)])]⟩ [] (fun _ _ => none)) := by
  have h := C5_trade_replay {} 100000 0 ["A"] [("A", 100)]
    ⟨["A"], [(0, [("A", 100)])]⟩ [] (fun _ _ => none)
    (by decide)
    (by
      intro r hr t ht
      simp only [List.mem_singleton] at hr
      subst hr
      fin_cases ht
      norm_num [rlookup_cons])
    (by
      norm_num [dynRun, dynNormWeights, sumWeights, wlookup_nil, wlookup_cons,
        dynInit, initialBuyLoop, rlookup_nil, rlookup_cons, aset, dynStep,
        mtmTotal, mtmWeights, positionValues, List.filter,
        calculate_total_cost, calculate_commission, calculate_slippage])
  exact ⟨h.1 "A", h.2 rfl⟩

set_option maxHeartbeats 4000000 in
/-- C5 fails as stated: in this three-ticker run a rebalance executes a
2000-sell on A and an 1100-buy on C while the offsetting 0.9-point leg on
B is skipped by the anti-churn filter, and the engine pins cash at zero;
the recorded value series ends at 99100 while replaying the trade log
from the initial capital gives 100000 — a gap of 900, far beyond any
floating-point tolerance. -/
theorem C5_counterexample :
    ((run_dynamic c5Cost 100000 0 ["A", "B", "C"] [("A", 100)] c5Prices [1] c5Strat).portfolio_values.map
        Prod.snd).getLastD 0 = 99100 ∧
    replayFinalValue 100000
      (run_dynamic c5Cost 100000 0 ["A", "B", "C"] [("A", 100)] c5Prices [1] c5Strat).trades
      c5Row = 100000 := by
  have nAB : (("A":String) = "B") = False := by simp
  have nAC : (("A":String) = "C") = False := by simp
  have nBA : (("B":String) = "A") = False := by simp
  have nBC : (("B":String) = "C") = False := by simp
  have nCA : (("C":String) = "A") = False := by simp
  have nCB : (("C":String) = "B") = False := by simp
  have nSB : (("SELL":String) = "BUY") = False := by simp
  have h0 : dynInit c5Cost ["A", "B", "C"] [("A", (100:ℚ)), ("B", 0), ("C", 0)] 100000 (0, c5Row)
      = ⟨[("A", 1000), ("B", 0), ("C", 0)], [("A", 100), ("B", 0), ("C", 0)], 0,
         [⟨0, "A", "BUY", 1000, 100, 100000, 0⟩], [], false⟩ := by
    norm_num [dynInit, initialBuyLoop, wlookup_nil, wlookup_cons, rlookup_nil, rlookup_cons,
      aset, c5Row, c5Cost, calculate_total_cost, calculate_commission, calculate_slippage,
      nAB, nAC, nBA, nBC, nCA, nCB]
  have h1 : dynStep c5Cost ["A", "B", "C"] [1] c5Strat
        ⟨[("A", 1000), ("B", 0), ("C", 0)], [("A", 100), ("B", 0), ("C", 0)], 0,
         [⟨0, "A", "BUY", 1000, 100, 100000, 0⟩], [], false⟩ (0, c5Row)
      = ⟨[("A", 1000), ("B", 0), ("C", 0)], [("A", 100), ("B", 0), ("C", 0)], 0,
         [⟨0, "A", "BUY", 1000, 100, 100000, 0⟩], [(0, 100000)], false⟩ := by
    norm_num [dynStep, mtmTotal, mtmWeights, positionValues, wlookup_nil, wlookup_cons,
      sumWeights, aset, rlookup_nil, rlookup_cons, c5Row, c5Strat,
      nAB, nAC, nBA, nBC, nCA, nCB]
  have h2 : dynStep c5Cost ["A", "B", "C"] [1] c5Strat
        ⟨[("A", 1000), ("B", 0), ("C", 0)], [("A", 100), ("B", 0), ("C", 0)], 0,
         [⟨0, "A", "BUY", 1000, 100, 100000, 0⟩], [(0, 100000)], false⟩ (1, c5Row)
      = ⟨[("A", 980), ("B", 0), ("C", 11)], [("A", 98), ("B", 9/10), ("C", 11/10)], 0,
         [⟨0, "A", "BUY", 1000, 100, 100000, 0⟩, ⟨1, "A", "SELL", 20, 100, 2000, 0⟩,
          ⟨1, "C", "BUY", 11, 100, 1100, 0⟩], [(0, 100000), (1, 100000)], false⟩ := by
    norm_num [dynStep, mtmTotal, mtmWeights, positionValues, wlookup_nil, wlookup_cons,
      sumWeights, aset, rlookup_nil, rlookup_cons, c5Row, c5Strat, rebalanceLoop,
      c5Cost, calculate_total_cost, calculate_commission, calculate_slippage,
      nAB, nAC, nBA, nBC, nCA, nCB, max_def, abs_lt]
  have h3 : dynStep c5Cost ["A", "B", "C"] [1] c5Strat
        ⟨[("A", 980), ("B", 0), ("C", 11)], [("A", 98), ("B", 9/10), ("C", 11/10)], 0,
         [⟨0, "A", "BUY", 1000, 100, 100000, 0⟩, ⟨1, "A", "SELL", 20, 100, 2000, 0⟩,
          ⟨1, "C", "BUY", 11, 100, 1100, 0⟩], [(0, 100000), (1, 100000)], false⟩ (2, c5Row)
      = ⟨[("A", 980), ("B", 0), ("C", 11)], [("A", 98000/991), ("B", 0), ("C", 1100/991)], 0,
         [⟨0, "A", "BUY", 1000, 100, 100000, 0⟩, ⟨1, "A", "SELL", 20, 100, 2000, 0⟩,
          ⟨1, "C", "BUY", 11, 100, 1100, 0⟩], [(0, 100000), (1, 100000), (2, 99100)], false⟩ := by
    norm_num [dynStep, mtmTotal, mtmWeights, positionValues, wlookup_nil, wlookup_cons,
      sumWeights, aset, rlookup_nil, rlookup_cons, c5Row, c5Strat,
      nAB, nAC, nBA, nBC, nCA, nCB]
  have hrun : dynRun c5Cost 100000 0 ["A", "B", "C"] [("A", 100)] c5Prices [1] c5Strat
      = ⟨[("A", 980), ("B", 0), ("C", 11)], [("A", 98000/991), ("B", 0), ("C", 1100/991)], 0,
         [⟨0, "A", "BUY", 1000, 100, 100000, 0⟩, ⟨1, "A", "SELL", 20, 100, 2000, 0⟩,
          ⟨1, "C", "BUY", 11, 100, 1100, 0⟩], [(0, 100000), (1, 100000), (2, 99100)], false⟩ := by
    have hsetup : dynRun c5Cost 100000 0 ["A", "B", "C"] [("A", 100)] c5Prices [1] c5Strat
        = [((0:ℤ), c5Row), (1, c5Row), (2, c5Row)].foldl
            (dynStep c5Cost ["A", "B", "C"] [1] c5Strat)
            (dynInit c5Cost ["A", "B", "C"] [("A", (100:ℚ)), ("B", 0), ("C", 0)] 100000 (0, c5Row)) := by
      norm_num [dynRun, dynNormWeights, sumWeights, wlookup_nil, wlookup_cons, c5Prices,
        List.filter, nAB, nAC, nBA, nBC, nCA, nCB]
    rw [hsetup, List.foldl_cons, h0, h1, List.foldl_cons, h2, List.foldl_cons, h3,
      List.foldl_nil]
  have hres : run_dynamic c5Cost 100000 0 ["A", "B", "C"] [("A", 100)] c5Prices [1] c5Strat
      = ⟨[(0, 100000), (1, 100000), (2, 99100)],
         [⟨0, "A", "BUY", 1000, 100, 100000, 0⟩, ⟨1, "A", "SELL", 20, 100, 2000, 0⟩,
          ⟨1, "C", "BUY", 11, 100, 1100, 0⟩], true, "",
         some ⟨[("A", 980), ("B", 0), ("C", 11)], [("A", 98000/991), ("B", 0), ("C", 1100/991)], 0,
           [⟨0, "A", "BUY", 1000, 100, 100000, 0⟩, ⟨1, "A", "SELL", 20, 100, 2000, 0⟩,
            ⟨1, "C", "BUY", 11, 100, 1100, 0⟩], [(0, 100000), (1, 100000), (2, 99100)], false⟩⟩ := by
    rw [run_dynamic, hrun]
    simp [c5Prices, c5Row, List.filter]
  rw [hres]
  refine ⟨by simp, ?_⟩
  norm_num [replayFinalValue, replayTrades, replayStep, wlookup_nil, wlookup_cons, aset,
    rlookup_nil, rlookup_cons, c5Row, List.foldl, nAB, nAC, nBA, nBC, nCA, nCB, nSB]

end QuantAnalysis
